import Mathlib

/-!
Verification of the Porkbun dynamic-DNS reconciliation agent (src/main.rs).

The program is an infinite loop: once per cycle it resolves the public IPv4
address, then for each configured subdomain it fetches the existing A record
from the Porkbun API and, when the stored content differs from the resolved
IP, issues exactly one update call.

Shallow embedding: network I/O is factored out as oracle parameters.  A
fetch call is represented by the request the code builds (URL plus JSON
payload) together with the response the environment returns
(`RetrieveRecordsResponse`); likewise for update calls (`ApiResponse`).
The pure decision logic of `get_porkbun_a_record`, `update_porkbun_a_record`
and the body of `main`'s per-subdomain loop is translated directly from the
Rust source, preserving names where Lean allows.
-/

namespace Porkbun

/-- Rust struct `AuthPayload`: the credential part of every request body. -/
structure AuthPayload where
  apikey : String
  secretapikey : String
deriving DecidableEq, Repr

/-- Rust struct `RetrieveRecordsPayload`: body of the fetch request
(auth is flattened in; `name` is the fully-qualified name). -/
structure RetrieveRecordsPayload where
  auth : AuthPayload
  name : String
deriving DecidableEq, Repr

/-- Rust struct `UpdateRecordPayload`: body of the update request.
`name` is the bare subdomain, `record_type` the serialized "type" field. -/
structure UpdateRecordPayload where
  auth : AuthPayload
  name : String
  record_type : String
  content : String
  ttl : Nat
deriving DecidableEq, Repr

/-- Rust struct `DnsRecord`: one record in the provider's fetch response.
`ttl` is textual on read, per the API. -/
structure DnsRecord where
  record_type : String
  name : String
  content : String
  ttl : String
  id : String
deriving DecidableEq, Repr

/-- Rust struct `RetrieveRecordsResponse`: provider response to a fetch. -/
structure RetrieveRecordsResponse where
  status : String
  records : Option (List DnsRecord)
  message : Option String
deriving DecidableEq, Repr

/-- Rust struct `ApiResponse`: provider response to an update. -/
structure ApiResponse where
  status : String
  message : Option String
deriving DecidableEq, Repr

/-- The fully-qualified name computed at the top of `get_porkbun_a_record`:
`subdomain + "." + domain` when the subdomain is non-empty, else the domain. -/
def full_name (domain subdomain : String) : String :=
  if subdomain.isEmpty then domain else subdomain ++ "." ++ domain

/-- URL built in `get_porkbun_a_record` (main.rs line 105). -/
def retrieveUrl (domain subdomain : String) : String :=
  "https://api.porkbun.com/api/json/v3/dns/retrieveByNameType/" ++ domain ++ "/A/" ++ subdomain

/-- URL built in `update_porkbun_a_record` (main.rs lines 166-169). -/
def editUrl (domain record_id : String) : String :=
  "https://api.porkbun.com/api/json/v3/dns/edit/" ++ domain ++ "/" ++ record_id

/-- Fetch request payload built in `get_porkbun_a_record` (lines 97-103). -/
def retrievePayload (api_key secret_api_key domain subdomain : String) :
    RetrieveRecordsPayload :=
  { auth := { apikey := api_key, secretapikey := secret_api_key }
    name := full_name domain subdomain }

/-- Update request payload built in `update_porkbun_a_record` (lines 154-163):
name is the bare subdomain, type "A", content the new IP, ttl fixed at 600. -/
def updatePayload (api_key secret_api_key subdomain new_ip : String) :
    UpdateRecordPayload :=
  { auth := { apikey := api_key, secretapikey := secret_api_key }
    name := subdomain
    record_type := "A"
    content := new_ip
    ttl := 600 }

/-- A fetch call as sent on the wire: URL and JSON body. -/
structure FetchRequest where
  url : String
  body : RetrieveRecordsPayload
deriving DecidableEq, Repr

/-- An update call as sent on the wire: URL and JSON body. -/
structure UpdateCall where
  url : String
  payload : UpdateRecordPayload
deriving DecidableEq, Repr

/-- The complete fetch request `get_porkbun_a_record` issues. -/
def buildFetchRequest (api_key secret_api_key domain subdomain : String) :
    FetchRequest :=
  { url := retrieveUrl domain subdomain
    body := retrievePayload api_key secret_api_key domain subdomain }

/-- The complete update request `update_porkbun_a_record` issues. -/
def buildEditRequest (api_key secret_api_key domain record_id subdomain new_ip : String) :
    UpdateCall :=
  { url := editUrl domain record_id
    payload := updatePayload api_key secret_api_key subdomain new_ip }

/-- The record-matching closure passed to `find` in `get_porkbun_a_record`
(lines 117-119): type is "A" and name equals the fully-qualified name. -/
def matchesA (domain subdomain : String) (r : DnsRecord) : Bool :=
  r.record_type == "A" && r.name == full_name domain subdomain

/-- Response handling of `get_porkbun_a_record` (lines 114-135), given the
response the provider returned.  On SUCCESS with a record list, the first
record matching `matchesA`; on SUCCESS with a null list, none; otherwise an
error carrying the provider's message (or "Unknown error" when absent). -/
def processRetrieveResponse (domain subdomain : String)
    (resp : RetrieveRecordsResponse) : Except String (Option DnsRecord) :=
  if resp.status = "SUCCESS" then
    match resp.records with
    | some records => Except.ok (records.find? (matchesA domain subdomain))
    | none => Except.ok none
  else
    Except.error ("Porkbun API error: " ++ resp.message.getD "Unknown error")

/-- Response handling of `update_porkbun_a_record` (lines 176-186). -/
def processUpdateResponse (resp : ApiResponse) : Except String Unit :=
  if resp.status = "SUCCESS" then Except.ok ()
  else Except.error ("Porkbun API error: " ++ resp.message.getD "Unknown error")

/-- Per-subdomain outcome of one reconciliation, naming the five branches of
the `match` in `main` (lines 252-293). -/
inductive Outcome where
  | NoChangeNeeded
  | Updated
  | SkippedNoRecord
  | ReadFailed (msg : String)
  | UpdateFailed (msg : String)
deriving DecidableEq, Repr

/-- Everything one iteration of `main`'s per-subdomain loop does for one
subdomain: the fetch request it sends, the outcome branch taken, and the
update calls it issues (in order). -/
structure SubdomainTrace where
  subdomain : String
  fetch : FetchRequest
  outcome : Outcome
  updates : List UpdateCall
deriving DecidableEq, Repr

/-- The body of `main`'s per-subdomain loop (lines 239-294), for one
subdomain.  `fetchResp` is the provider's response to the fetch request and
`updateResp` its response to the update request, should one be sent. -/
def reconcileSubdomain (api_key secret_api_key domain subdomain current_ip : String)
    (fetchResp : RetrieveRecordsResponse) (updateResp : ApiResponse) :
    SubdomainTrace :=
  let base : SubdomainTrace :=
    { subdomain := subdomain
      fetch := buildFetchRequest api_key secret_api_key domain subdomain
      outcome := Outcome.NoChangeNeeded
      updates := [] }
  match processRetrieveResponse domain subdomain fetchResp with
  | Except.error e => { base with outcome := Outcome.ReadFailed e }
  | Except.ok none => { base with outcome := Outcome.SkippedNoRecord }
  | Except.ok (some record) =>
      if record.content = current_ip then
        { base with outcome := Outcome.NoChangeNeeded }
      else
        let call := buildEditRequest api_key secret_api_key domain record.id
          subdomain current_ip
        match processUpdateResponse updateResp with
        | Except.ok _ =>
            { base with outcome := Outcome.Updated, updates := [call] }
        | Except.error e =>
            { base with outcome := Outcome.UpdateFailed e, updates := [call] }

/-- The inner `for subdomain in &subdomains` loop of `main` (lines 239-294):
each subdomain is reconciled in configuration order against the same
`current_ip`; the oracles give the provider's response per subdomain. -/
def processCycle (api_key secret_api_key domain : String) (subdomains : List String)
    (current_ip : String)
    (fetchOracle : String → RetrieveRecordsResponse)
    (updateOracle : String → ApiResponse) : List SubdomainTrace :=
  subdomains.map fun sub =>
    reconcileSubdomain api_key secret_api_key domain sub current_ip
      (fetchOracle sub) (updateOracle sub)

/-- The configuration `main` builds once before the loop (lines 205-225):
credentials, domain, parsed subdomain list, check interval in seconds. -/
structure CycleConfig where
  api_key : String
  secret_api_key : String
  domain : String
  subdomains : List String
  check_interval_seconds : Nat
deriving DecidableEq, Repr

/-- Observable behavior of one iteration of `main`'s `loop` (lines 231-304):
the per-subdomain traces of the reconciliation phase (empty when IP
resolution failed) and the duration of the final sleep. -/
structure CycleTrace where
  results : List SubdomainTrace
  sleepSeconds : Nat
deriving DecidableEq, Repr

/-- One iteration of `main`'s `loop`: on a successful IP resolution every
subdomain is processed against that IP; on a failed resolution the whole
reconciliation phase is skipped; either way the iteration ends with a sleep
of the configured interval (lines 236-303). -/
def runCycle (cfg : CycleConfig) (ipResult : Except String String)
    (fetchOracle : String → RetrieveRecordsResponse)
    (updateOracle : String → ApiResponse) : CycleTrace :=
  match ipResult with
  | Except.ok current_ip =>
      { results := processCycle cfg.api_key cfg.secret_api_key cfg.domain
          cfg.subdomains current_ip fetchOracle updateOracle
        sleepSeconds := cfg.check_interval_seconds }
  | Except.error _ =>
      { results := []
        sleepSeconds := cfg.check_interval_seconds }

/-- The first `n` iterations of `main`'s infinite `loop`.  The IP oracle is
indexed by how many resolutions have been performed so far, so the first
component counts the `get_current_ipv4` calls made; the fetch and update
oracles are indexed by cycle number.  Returns (resolution count, cycle
traces in order). -/
def loopSteps (cfg : CycleConfig) (ipOracle : Nat → Except String String)
    (fetchOracles : Nat → String → RetrieveRecordsResponse)
    (updateOracles : Nat → String → ApiResponse) : Nat → Nat × List CycleTrace
  | 0 => (0, [])
  | n + 1 =>
      let prev := loopSteps cfg ipOracle fetchOracles updateOracles n
      (prev.1 + 1,
       prev.2 ++ [runCycle cfg (ipOracle prev.1) (fetchOracles n) (updateOracles n)])

/-- Unicode White_Space property, the definition of `char::is_whitespace`
used by Rust's `str::trim` (main.rs line 218). -/
def rustIsWhitespace (c : Char) : Bool :=
  c.val == 0x09 || c.val == 0x0A || c.val == 0x0B || c.val == 0x0C ||
  c.val == 0x0D || c.val == 0x20 || c.val == 0x85 || c.val == 0xA0 ||
  c.val == 0x1680 ||
  c.val == 0x2000 || c.val == 0x2001 || c.val == 0x2002 || c.val == 0x2003 ||
  c.val == 0x2004 || c.val == 0x2005 || c.val == 0x2006 || c.val == 0x2007 ||
  c.val == 0x2008 || c.val == 0x2009 || c.val == 0x200A ||
  c.val == 0x2028 || c.val == 0x2029 || c.val == 0x202F || c.val == 0x205F ||
  c.val == 0x3000

/-- Rust `str::trim`: drop leading and trailing whitespace characters. -/
def rustTrimList (l : List Char) : List Char :=
  ((l.dropWhile rustIsWhitespace).reverse.dropWhile rustIsWhitespace).reverse

/-- Rust `str::split(',')`: pieces between commas, keeping empty pieces; the
empty string yields one empty piece. -/
def splitOnComma : List Char → List (List Char)
  | [] => [[]]
  | c :: cs =>
      if c = ',' then [] :: splitOnComma cs
      else
        match splitOnComma cs with
        | [] => [[c]]
        | p :: ps => (c :: p) :: ps

/-- The subdomain parsing in `main` (lines 215-219):
`subdomains_str.split(',').map(|s| s.trim().to_string())`. -/
def parseSubdomains (subdomains_str : String) : List String :=
  (splitOnComma subdomains_str.toList).map fun piece =>
    String.mk (rustTrimList piece)

/-- ASCII whitespace (the six ASCII characters with the White_Space
property). -/
def asciiIsWhitespace (c : Char) : Bool :=
  c.val == 0x09 || c.val == 0x0A || c.val == 0x0B || c.val == 0x0C ||
  c.val == 0x0D || c.val == 0x20

/-- Modelled from the claim's words, for comparison with `parseSubdomains`:
splitting on commas and trimming only ASCII whitespace from each piece. -/
def parseSubdomainsAsciiSpec (subdomains_str : String) : List String :=
  (splitOnComma subdomains_str.toList).map fun piece =>
    String.mk (((piece.dropWhile asciiIsWhitespace).reverse.dropWhile
      asciiIsWhitespace).reverse)

deriving instance DecidableEq for Except

/-- Test fixture: an existing A record for www.example.com holding 1.2.3.4. -/
def recEx : DnsRecord :=
  { record_type := "A", name := "www.example.com", content := "1.2.3.4"
    ttl := "600", id := "rec123" }

/-- Test fixture: a TXT record with the same name, which fetch must skip. -/
def recTxtEx : DnsRecord :=
  { record_type := "TXT", name := "www.example.com", content := "v=spf1"
    ttl := "600", id := "rec999" }

/-- Test fixture: successful fetch response containing `recEx`. -/
def frFound : RetrieveRecordsResponse :=
  { status := "SUCCESS", records := some [recEx], message := none }

/-- Test fixture: successful fetch response with a TXT decoy before the
A record. -/
def frDecoy : RetrieveRecordsResponse :=
  { status := "SUCCESS", records := some [recTxtEx, recEx], message := none }

/-- Test fixture: successful fetch response with a null record list. -/
def frNone : RetrieveRecordsResponse :=
  { status := "SUCCESS", records := none, message := none }

/-- Test fixture: failed fetch response with the provider message. -/
def frErr : RetrieveRecordsResponse :=
  { status := "ERROR", records := none, message := some "Invalid API key" }

/-- Test fixture: successful update response. -/
def urOk : ApiResponse := { status := "SUCCESS", message := none }

/-- Test fixture: a one-subdomain configuration. -/
def cfgEx : CycleConfig :=
  { api_key := "k", secret_api_key := "s", domain := "example.com"
    subdomains := ["www"], check_interval_seconds := 300 }

theorem reconcileSubdomain_subdomain (k s d sub ip : String)
    (fr : RetrieveRecordsResponse) (ur : ApiResponse) :
    (reconcileSubdomain k s d sub ip fr ur).subdomain = sub := by
  unfold reconcileSubdomain
  split
  · rfl
  · rfl
  · split
    · rfl
    · split <;> rfl

theorem reconcileSubdomain_fetch (k s d sub ip : String)
    (fr : RetrieveRecordsResponse) (ur : ApiResponse) :
    (reconcileSubdomain k s d sub ip fr ur).fetch = buildFetchRequest k s d sub := by
  unfold reconcileSubdomain
  split
  · rfl
  · rfl
  · split
    · rfl
    · split <;> rfl

theorem reconcileSubdomain_updates_shape (k s d sub ip : String)
    (fr : RetrieveRecordsResponse) (ur : ApiResponse) :
    (reconcileSubdomain k s d sub ip fr ur).updates = [] ∨
    ∃ record, processRetrieveResponse d sub fr = Except.ok (some record) ∧
      record.content ≠ ip ∧
      (reconcileSubdomain k s d sub ip fr ur).updates =
        [buildEditRequest k s d record.id sub ip] := by
  unfold reconcileSubdomain
  split
  · exact Or.inl rfl
  · exact Or.inl rfl
  · rename_i record hf
    split
    · exact Or.inl rfl
    · rename_i hc
      refine Or.inr ⟨record, hf, hc, ?_⟩
      split <;> rfl

/-- C1: when a record is found and its content differs from the resolved IP,
exactly one update call is issued, targeting the existing record's id, with
payload name the bare subdomain, type "A", content the resolved IP and ttl
600; on update success the outcome is Updated. -/
theorem drift_single_update (k s d sub ip : String)
    (fr : RetrieveRecordsResponse) (ur : ApiResponse) (record : DnsRecord)
    (hfetch : processRetrieveResponse d sub fr = Except.ok (some record))
    (hdrift : record.content ≠ ip) :
    (reconcileSubdomain k s d sub ip fr ur).updates =
      [{ url := editUrl d record.id
         payload := { auth := { apikey := k, secretapikey := s }
                      name := sub
                      record_type := "A"
                      content := ip
                      ttl := 600 } }] ∧
    (ur.status = "SUCCESS" →
      (reconcileSubdomain k s d sub ip fr ur).outcome = Outcome.Updated) := by
  unfold reconcileSubdomain
  rw [hfetch]
  dsimp only
  rw [if_neg hdrift]
  constructor
  · split <;> rfl
  · intro hsucc
    have hu : processUpdateResponse ur = Except.ok () := by
      simp [processUpdateResponse, hsucc]
    rw [hu]

theorem drift_single_update_witness :
    (reconcileSubdomain "k" "s" "example.com" "www" "5.6.7.8" frFound urOk).updates =
      [{ url := editUrl "example.com" "rec123"
         payload := { auth := { apikey := "k", secretapikey := "s" }
                      name := "www"
                      record_type := "A"
                      content := "5.6.7.8"
                      ttl := 600 } }] ∧
    (reconcileSubdomain "k" "s" "example.com" "www" "5.6.7.8" frFound urOk).outcome =
      Outcome.Updated := by
  have h := drift_single_update "k" "s" "example.com" "www" "5.6.7.8"
    frFound urOk recEx rfl (by decide)
  exact ⟨h.1, h.2 rfl⟩

/-- C2: when a record is found and its content equals the resolved IP, no
update call is issued and the outcome is NoChangeNeeded. -/
theorem no_drift_no_update (k s d sub ip : String)
    (fr : RetrieveRecordsResponse) (ur : ApiResponse) (record : DnsRecord)
    (hfetch : processRetrieveResponse d sub fr = Except.ok (some record))
    (hsame : record.content = ip) :
    (reconcileSubdomain k s d sub ip fr ur).outcome = Outcome.NoChangeNeeded ∧
    (reconcileSubdomain k s d sub ip fr ur).updates = [] := by
  unfold reconcileSubdomain
  rw [hfetch]
  dsimp only
  rw [if_pos hsame]
  exact ⟨rfl, rfl⟩

theorem no_drift_no_update_witness :
    (reconcileSubdomain "k" "s" "example.com" "www" "1.2.3.4" frFound urOk).outcome =
      Outcome.NoChangeNeeded ∧
    (reconcileSubdomain "k" "s" "example.com" "www" "1.2.3.4" frFound urOk).updates = [] :=
  no_drift_no_update "k" "s" "example.com" "www" "1.2.3.4" frFound urOk recEx rfl rfl

/-- C3: when the fetch succeeds but yields no matching record, no update is
attempted and the outcome is SkippedNoRecord, whatever the resolved IP and
the update oracle; moreover every update call the reconciler can ever issue
targets the provider's edit endpoint, so a record is never created. -/
theorem no_record_skip (k s d sub ip : String)
    (fr : RetrieveRecordsResponse) (ur : ApiResponse)
    (hfetch : processRetrieveResponse d sub fr = Except.ok none) :
    (reconcileSubdomain k s d sub ip fr ur).outcome = Outcome.SkippedNoRecord ∧
    (reconcileSubdomain k s d sub ip fr ur).updates = [] ∧
    ∀ (k2 s2 d2 sub2 ip2 : String) (fr2 : RetrieveRecordsResponse)
      (ur2 : ApiResponse) (c : UpdateCall),
      c ∈ (reconcileSubdomain k2 s2 d2 sub2 ip2 fr2 ur2).updates →
      ∃ record_id, c.url = editUrl d2 record_id := by
  refine ⟨?_, ?_, ?_⟩
  · unfold reconcileSubdomain; rw [hfetch]
  · unfold reconcileSubdomain; rw [hfetch]
  · intro k2 s2 d2 sub2 ip2 fr2 ur2 c hc
    rcases reconcileSubdomain_updates_shape k2 s2 d2 sub2 ip2 fr2 ur2 with
      h | ⟨record, _, _, h⟩
    · rw [h] at hc; cases hc
    · rw [h] at hc
      simp only [List.mem_singleton] at hc
      subst hc
      exact ⟨record.id, rfl⟩

theorem no_record_skip_witness :
    (reconcileSubdomain "k" "s" "example.com" "www" "5.6.7.8" frNone urOk).outcome =
      Outcome.SkippedNoRecord ∧
    (reconcileSubdomain "k" "s" "example.com" "www" "5.6.7.8" frNone urOk).updates = [] := by
  have h := no_record_skip "k" "s" "example.com" "www" "5.6.7.8" frNone urOk rfl
  exact ⟨h.1, h.2.1⟩

/-- C7: a fetch response whose status is not SUCCESS makes the fetch fail
with the provider's message (or "Unknown error" when absent) and the
subdomain's outcome is ReadFailed with that message; in particular status
"ERROR" with message "Invalid API key" yields
ReadFailed "Porkbun API error: Invalid API key". -/
theorem fetch_error_read_failed (k s d sub ip : String)
    (fr : RetrieveRecordsResponse) (ur : ApiResponse)
    (hstatus : fr.status ≠ "SUCCESS") :
    processRetrieveResponse d sub fr =
      Except.error ("Porkbun API error: " ++ fr.message.getD "Unknown error") ∧
    (reconcileSubdomain k s d sub ip fr ur).outcome =
      Outcome.ReadFailed ("Porkbun API error: " ++ fr.message.getD "Unknown error") ∧
    (reconcileSubdomain k s d sub ip frErr ur).outcome =
      Outcome.ReadFailed "Porkbun API error: Invalid API key" := by
  have h1 : processRetrieveResponse d sub fr =
      Except.error ("Porkbun API error: " ++ fr.message.getD "Unknown error") := by
    unfold processRetrieveResponse
    rw [if_neg hstatus]
  have h2 : processRetrieveResponse d sub frErr =
      Except.error "Porkbun API error: Invalid API key" := rfl
  refine ⟨h1, ?_, ?_⟩
  · unfold reconcileSubdomain; rw [h1]
  · unfold reconcileSubdomain; rw [h2]

theorem fetch_error_read_failed_witness :
    processRetrieveResponse "example.com" "www" frErr =
      Except.error "Porkbun API error: Invalid API key" ∧
    (reconcileSubdomain "k" "s" "example.com" "www" "5.6.7.8" frErr urOk).outcome =
      Outcome.ReadFailed "Porkbun API error: Invalid API key" := by
  have h := fetch_error_read_failed "k" "s" "example.com" "www" "5.6.7.8"
    frErr urOk (by decide)
  exact ⟨h.1, h.2.2⟩
/-- C4: on a SUCCESS response carrying a record list, fetch returns the first
record in provider order whose type is "A" and whose name equals the
fully-qualified name, and none when no record satisfies both; a record with
matching name but different type is never selected. -/
theorem fetch_first_exact_match (d sub : String) (resp : RetrieveRecordsResponse)
    (rs : List DnsRecord)
    (hs : resp.status = "SUCCESS") (hr : resp.records = some rs) :
    processRetrieveResponse d sub resp = Except.ok (rs.find? (matchesA d sub)) ∧
    (∀ r, rs.find? (matchesA d sub) = some r →
      r.record_type = "A" ∧ r.name = full_name d sub ∧
      ∃ before after, rs = before ++ r :: after ∧
        ∀ x ∈ before, ¬(x.record_type = "A" ∧ x.name = full_name d sub)) ∧
    (rs.find? (matchesA d sub) = none ↔
      ∀ r ∈ rs, ¬(r.record_type = "A" ∧ r.name = full_name d sub)) := by
  refine ⟨?_, ?_, ?_⟩
  · unfold processRetrieveResponse
    rw [if_pos hs, hr]
  · intro r h
    obtain ⟨hp, before, after, heq, hall⟩ := List.find?_eq_some.mp h
    simp only [matchesA, Bool.and_eq_true, beq_iff_eq] at hp
    refine ⟨hp.1, hp.2, before, after, heq, ?_⟩
    intro x hx hcontra
    have hfalse : matchesA d sub x = false := by simpa using hall x hx
    rw [matchesA, hcontra.1, hcontra.2] at hfalse
    simp at hfalse
  · rw [List.find?_eq_none]
    constructor
    · intro h r hr2 hcontra
      apply h r hr2
      simp [matchesA, hcontra.1, hcontra.2]
    · intro h r hr2 hp
      simp only [matchesA, Bool.and_eq_true, beq_iff_eq] at hp
      exact h r hr2 hp

theorem fetch_first_exact_match_witness :
    processRetrieveResponse "example.com" "www" frDecoy = Except.ok (some recEx) := by
  have h := fetch_first_exact_match "example.com" "www" frDecoy [recTxtEx, recEx] rfl rfl
  exact h.1.trans (by decide)
theorem loopSteps_fst (cfg : CycleConfig) (ipo : Nat → Except String String)
    (fos : Nat → String → RetrieveRecordsResponse)
    (uos : Nat → String → ApiResponse) (n : Nat) :
    (loopSteps cfg ipo fos uos n).1 = n := by
  induction n with
  | zero => rfl
  | succ m ih => simp [loopSteps, ih]

theorem loopSteps_len (cfg : CycleConfig) (ipo : Nat → Except String String)
    (fos : Nat → String → RetrieveRecordsResponse)
    (uos : Nat → String → ApiResponse) (n : Nat) :
    (loopSteps cfg ipo fos uos n).2.length = n := by
  induction n with
  | zero => rfl
  | succ m ih => simp [loopSteps, ih]

/-- C5: subdomains are processed sequentially in configuration order, and a
fetch or update failure for one subdomain never prevents the later
subdomains from being processed in the same cycle: the cycle's trace splits
at any position, and the tail's traces depend only on the tail's own
provider responses. -/
theorem subdomain_failure_isolated (k s d ip : String)
    (fo : String → RetrieveRecordsResponse) (uo : String → ApiResponse)
    (pre post : List String) :
    processCycle k s d (pre ++ post) ip fo uo =
      processCycle k s d pre ip fo uo ++ processCycle k s d post ip fo uo ∧
    (processCycle k s d pre ip fo uo).map SubdomainTrace.subdomain = pre ∧
    ∀ (fo2 : String → RetrieveRecordsResponse) (uo2 : String → ApiResponse),
      (∀ x ∈ post, fo x = fo2 x ∧ uo x = uo2 x) →
      processCycle k s d post ip fo uo = processCycle k s d post ip fo2 uo2 := by
  refine ⟨List.map_append _ _ _, ?_, ?_⟩
  · unfold processCycle
    rw [List.map_map]
    have h : ∀ x ∈ pre,
        (SubdomainTrace.subdomain ∘ fun sub =>
          reconcileSubdomain k s d sub ip (fo sub) (uo sub)) x = id x := by
      intro x _
      exact reconcileSubdomain_subdomain k s d x ip (fo x) (uo x)
    rw [List.map_congr_left h, List.map_id]
  · intro fo2 uo2 h
    unfold processCycle
    exact List.map_congr_left fun x hx => by rw [(h x hx).1, (h x hx).2]

theorem subdomain_failure_isolated_witness :
    processCycle "k" "s" "example.com" (["bad"] ++ ["www"]) "5.6.7.8"
        (fun _ => frErr) (fun _ => urOk) =
      processCycle "k" "s" "example.com" ["bad"] "5.6.7.8"
        (fun _ => frErr) (fun _ => urOk) ++
      processCycle "k" "s" "example.com" ["www"] "5.6.7.8"
        (fun _ => frErr) (fun _ => urOk) ∧
    processCycle "k" "s" "example.com" ["www"] "5.6.7.8"
        (fun _ => frErr) (fun _ => urOk) =
      processCycle "k" "s" "example.com" ["www"] "5.6.7.8"
        (fun x => if x = "www" then frErr else frFound)
        (fun _ => urOk) := by
  have h := subdomain_failure_isolated "k" "s" "example.com" "5.6.7.8"
    (fun _ => frErr) (fun _ => urOk) ["bad"] ["www"]
  refine ⟨h.1, h.2.2 (fun x => if x = "www" then frErr else frFound) (fun _ => urOk) ?_⟩
  intro x hx
  simp only [List.mem_singleton] at hx
  subst hx
  exact ⟨by simp, rfl⟩
theorem reconcileSubdomain_updates_content (k s d sub ip : String)
    (fr : RetrieveRecordsResponse) (ur : ApiResponse) :
    ∀ c ∈ (reconcileSubdomain k s d sub ip fr ur).updates,
      c.payload.content = ip := by
  intro c hc
  rcases reconcileSubdomain_updates_shape k s d sub ip fr ur with
    h | ⟨record, _, _, h⟩
  · rw [h] at hc; cases hc
  · rw [h] at hc
    simp only [List.mem_singleton] at hc
    subst hc
    rfl

/-- C6: a failed IP resolution skips the whole reconciliation phase of that
cycle (no fetch, no update) but does not end the loop: the sleep is the same
configured interval as after a successful cycle, the loop reaches every
cycle index, and cycle n+1 always performs a fresh resolution attempt. -/
theorem ip_failure_skips_cycle (cfg : CycleConfig) (e ip : String)
    (fo1 : String → RetrieveRecordsResponse) (uo1 : String → ApiResponse)
    (ipo : Nat → Except String String)
    (fos : Nat → String → RetrieveRecordsResponse)
    (uos : Nat → String → ApiResponse) (n : Nat) :
    (runCycle cfg (Except.error e) fo1 uo1).results = [] ∧
    (runCycle cfg (Except.error e) fo1 uo1).sleepSeconds =
      cfg.check_interval_seconds ∧
    (runCycle cfg (Except.ok ip) fo1 uo1).sleepSeconds =
      cfg.check_interval_seconds ∧
    (loopSteps cfg ipo fos uos n).2.length = n ∧
    (loopSteps cfg ipo fos uos (n + 1)).2 =
      (loopSteps cfg ipo fos uos n).2 ++
        [runCycle cfg (ipo n) (fos n) (uos n)] := by
  refine ⟨rfl, rfl, rfl, loopSteps_len cfg ipo fos uos n, ?_⟩
  simp [loopSteps, loopSteps_fst]

/-- C8: the public IP is resolved exactly once per cycle (after n cycles
exactly n resolution calls have been made, whatever the configuration and
however cycles failed), and every subdomain processed in a cycle is
reconciled against that cycle's single resolved IP: each trace equals the
reconciliation of its subdomain with the same ip, and every update call
issued anywhere in the cycle carries that ip as its content. -/
theorem ip_resolved_once_per_cycle (cfg : CycleConfig)
    (ipo : Nat → Except String String)
    (fos : Nat → String → RetrieveRecordsResponse)
    (uos : Nat → String → ApiResponse) (n : Nat) (ip : String)
    (fo1 : String → RetrieveRecordsResponse) (uo1 : String → ApiResponse) :
    (loopSteps cfg ipo fos uos n).1 = n ∧
    ∀ tr ∈ (runCycle cfg (Except.ok ip) fo1 uo1).results,
      tr = reconcileSubdomain cfg.api_key cfg.secret_api_key cfg.domain
            tr.subdomain ip (fo1 tr.subdomain) (uo1 tr.subdomain) ∧
      ∀ c ∈ tr.updates, c.payload.content = ip := by
  refine ⟨loopSteps_fst cfg ipo fos uos n, ?_⟩
  intro tr htr
  simp only [runCycle, processCycle, List.mem_map] at htr
  obtain ⟨sub, _, hsub⟩ := htr
  have hname : tr.subdomain = sub := by
    rw [← hsub]
    exact reconcileSubdomain_subdomain _ _ _ _ _ _ _
  subst hsub
  rw [hname]
  exact ⟨rfl, reconcileSubdomain_updates_content _ _ _ _ _ _ _⟩
theorem ip_resolved_once_per_cycle_witness :
    (loopSteps cfgEx (fun _ => Except.ok "5.6.7.8") (fun _ _ => frFound)
      (fun _ _ => urOk) 3).1 = 3 ∧
    (buildEditRequest "k" "s" "example.com" "rec123" "www" "5.6.7.8").payload.content =
      "5.6.7.8" := by
  have h := ip_resolved_once_per_cycle cfgEx (fun _ => Except.ok "5.6.7.8")
    (fun _ _ => frFound) (fun _ _ => urOk) 3 "5.6.7.8"
    (fun _ => frFound) (fun _ => urOk)
  refine ⟨h.1, ?_⟩
  have h2 := h.2
    (reconcileSubdomain "k" "s" "example.com" "www" "5.6.7.8" frFound urOk)
    (by decide)
  exact h2.2 _ (by decide)

/-- C9: for both provider operations the credentials appear only in the JSON
request body, never in the URL: the URLs built from two different credential
pairs coincide, while the bodies carry the respective apikey and
secretapikey fields; the reconciler's own fetch request and every update
call it issues carry the credentials in the body. -/
theorem credentials_only_in_body (k1 s1 k2 s2 d sub record_id ip : String)
    (fr : RetrieveRecordsResponse) (ur : ApiResponse) :
    (buildFetchRequest k1 s1 d sub).url = (buildFetchRequest k2 s2 d sub).url ∧
    (buildFetchRequest k1 s1 d sub).body.auth =
      { apikey := k1, secretapikey := s1 } ∧
    (buildEditRequest k1 s1 d record_id sub ip).url =
      (buildEditRequest k2 s2 d record_id sub ip).url ∧
    (buildEditRequest k1 s1 d record_id sub ip).payload.auth =
      { apikey := k1, secretapikey := s1 } ∧
    (reconcileSubdomain k1 s1 d sub ip fr ur).fetch =
      buildFetchRequest k1 s1 d sub ∧
    ∀ c ∈ (reconcileSubdomain k1 s1 d sub ip fr ur).updates,
      c.payload.auth = { apikey := k1, secretapikey := s1 } := by
  refine ⟨rfl, rfl, rfl, rfl,
    reconcileSubdomain_fetch k1 s1 d sub ip fr ur, ?_⟩
  intro c hc
  rcases reconcileSubdomain_updates_shape k1 s1 d sub ip fr ur with
    h | ⟨record, _, _, h⟩
  · rw [h] at hc; cases hc
  · rw [h] at hc
    simp only [List.mem_singleton] at hc
    subst hc
    rfl

theorem credentials_only_in_body_witness :
    (buildFetchRequest "k1" "s1" "example.com" "www").url =
      (buildFetchRequest "k2" "s2" "example.com" "www").url ∧
    (buildEditRequest "k1" "s1" "example.com" "rec123" "www" "5.6.7.8").payload.auth =
      { apikey := "k1", secretapikey := "s1" } := by
  have h := credentials_only_in_body "k1" "s1" "k2" "s2" "example.com" "www"
    "rec123" "5.6.7.8" frFound urOk
  exact ⟨h.1, h.2.2.2.2.2 _ (by decide)⟩
theorem splitOnComma_ne_nil (l : List Char) : splitOnComma l ≠ [] := by
  cases l with
  | nil => simp [splitOnComma]
  | cons c cs =>
      unfold splitOnComma
      by_cases hc : c = ','
      · simp [hc]
      · rw [if_neg hc]
        cases h : splitOnComma cs <;> simp

theorem splitOnComma_length (l : List Char) :
    (splitOnComma l).length = l.count ',' + 1 := by
  induction l with
  | nil => simp [splitOnComma]
  | cons c cs ih =>
      unfold splitOnComma
      by_cases hc : c = ','
      · subst hc
        simp [List.count_cons, ih]
      · rw [if_neg hc]
        cases h : splitOnComma cs with
        | nil => exact absurd h (splitOnComma_ne_nil cs)
        | cons p ps =>
            rw [h] at ih
            simp only [List.length_cons] at ih ⊢
            rw [List.count_cons_of_ne (by simpa using Ne.symm hc)]
            omega

/-- C10 counterexample: the code trims Unicode whitespace
(Rust char::is_whitespace), not only ASCII whitespace.  On the input
"a" followed by U+00A0 (no-break space, White_Space but not ASCII) the code
yields ["a"], while splitting on commas and trimming ASCII whitespace
yields the piece with the no-break space kept. -/
theorem subdomain_parse_not_ascii_trim :
    parseSubdomains (String.mk ['a', Char.ofNat 0xA0]) = ["a"] ∧
    parseSubdomainsAsciiSpec (String.mk ['a', Char.ofNat 0xA0]) =
      [String.mk ['a', Char.ofNat 0xA0]] ∧
    parseSubdomains (String.mk ['a', Char.ofNat 0xA0]) ≠
      parseSubdomainsAsciiSpec (String.mk ['a', Char.ofNat 0xA0]) :=
  ⟨by decide, by decide, by decide⟩

/-- C10 (amended): the target list is obtained by splitting the subdomain
configuration string on commas and trimming Unicode whitespace from each
piece: the empty string yields exactly one entry, the empty string;
consecutive or trailing commas yield additional empty entries; the number
of entries is always the number of commas plus one; and an empty entry is
processed as the bare root domain. -/
theorem subdomain_parse_split_trim (d s : String) :
    parseSubdomains "" = [""] ∧
    parseSubdomains "a,,b" = ["a", "", "b"] ∧
    parseSubdomains "a," = ["a", ""] ∧
    parseSubdomains " a ,\tb " = ["a", "b"] ∧
    parseSubdomains (String.mk ['a', Char.ofNat 0xA0]) = ["a"] ∧
    (parseSubdomains s).length = s.toList.count ',' + 1 ∧
    full_name d "" = d ∧
    (buildFetchRequest "k" "sec" d "").body.name = d := by
  refine ⟨by decide, by decide, by decide, by decide, by decide, ?_, ?_, ?_⟩
  · unfold parseSubdomains
    rw [List.length_map]
    exact splitOnComma_length s.toList
  · rfl
  · rfl
end Porkbun
